import Mathlib

/-!
# GTProxy: packet type system (`src/packet/packet_types.hpp`) and the
bootstrap handler (`src/server/http.cpp`)

Shallow embedding of the wire-layout definitions: the kind-tag enumerations,
the event flag word of `GameUpdatePacket` with its two views, the packed
layout of the frame header, and the typed bindings `NetMessage` / `NetPacket`.

Machine integers are natural numbers; a flags word is a natural number below
`2 ^ 32`. Bit-fields are allocated from the least significant bit in
declaration order, as on the reference platform.
-/

namespace packet

/-! ## Enumerations -/

/-- The enumeration `NetMessageType` (underlying type `std::uint32_t`). -/
inductive NetMessageType
  | NET_MESSAGE_UNKNOWN
  | NET_MESSAGE_SERVER_HELLO
  | NET_MESSAGE_GENERIC_TEXT
  | NET_MESSAGE_GAME_MESSAGE
  | NET_MESSAGE_GAME_PACKET
  | NET_MESSAGE_ERROR
  | NET_MESSAGE_TRACK
  | NET_MESSAGE_CLIENT_LOG_REQUEST
  | NET_MESSAGE_CLIENT_LOG_RESPONSE
  | NET_MESSAGE_MAX
  deriving DecidableEq, Repr

/-- Enumerators of `NetMessageType` in declaration order. -/
def NetMessageType.enumerators : List NetMessageType :=
  [ .NET_MESSAGE_UNKNOWN, .NET_MESSAGE_SERVER_HELLO, .NET_MESSAGE_GENERIC_TEXT,
    .NET_MESSAGE_GAME_MESSAGE, .NET_MESSAGE_GAME_PACKET, .NET_MESSAGE_ERROR,
    .NET_MESSAGE_TRACK, .NET_MESSAGE_CLIENT_LOG_REQUEST,
    .NET_MESSAGE_CLIENT_LOG_RESPONSE, .NET_MESSAGE_MAX ]

/-- Integer value of an enumerator: no enumerator has an initialiser, so the
first is 0 and each next one is the previous plus one. -/
def NetMessageType.toNat (m : NetMessageType) : Nat :=
  NetMessageType.enumerators.indexOf m

/-- The enumeration `PacketType` (underlying type `std::uint8_t`). -/
inductive PacketType
  | PACKET_STATE
  | PACKET_CALL_FUNCTION
  | PACKET_UPDATE_STATUS
  | PACKET_TILE_CHANGE_REQUEST
  | PACKET_SEND_MAP_DATA
  | PACKET_SEND_TILE_UPDATE_DATA
  | PACKET_SEND_TILE_UPDATE_DATA_MULTIPLE
  | PACKET_TILE_ACTIVATE_REQUEST
  | PACKET_TILE_APPLY_DAMAGE
  | PACKET_SEND_INVENTORY_STATE
  | PACKET_ITEM_ACTIVATE_REQUEST
  | PACKET_ITEM_ACTIVATE_OBJECT_REQUEST
  | PACKET_SEND_TILE_TREE_STATE
  | PACKET_MODIFY_ITEM_INVENTORY
  | PACKET_ITEM_CHANGE_OBJECT
  | PACKET_SEND_LOCK
  | PACKET_SEND_ITEM_DATABASE_DATA
  | PACKET_SEND_PARTICLE_EFFECT
  | PACKET_SET_ICON_STATE
  | PACKET_ITEM_EFFECT
  | PACKET_SET_CHARACTER_STATE
  | PACKET_PING_REPLY
  | PACKET_PING_REQUEST
  | PACKET_GOT_PUNCHED
  | PACKET_APP_CHECK_RESPONSE
  | PACKET_APP_INTEGRITY_FAIL
  | PACKET_DISCONNECT
  | PACKET_BATTLE_JOIN
  | PACKET_BATTLE_EVENT
  | PACKET_USE_DOOR
  | PACKET_SEND_PARENTAL
  | PACKET_GONE_FISHIN
  | PACKET_STEAM
  | PACKET_PET_BATTLE
  | PACKET_NPC
  | PACKET_SPECIAL
  | PACKET_SEND_PARTICLE_EFFECT_V2
  | PACKET_ACTIVE_ARROW_TO_ITEM
  | PACKET_SELECT_TILE_INDEX
  | PACKET_SEND_PLAYER_TRIBUTE_DATA
  | PACKET_FTUE_SET_ITEM_TO_QUICK_INVENTORY
  | PACKET_PVE_NPC
  | PACKET_PVP_CARD_BATTLE
  | PACKET_PVE_APPLY_PLAYER_DAMAGE
  | PACKET_PVE_NPC_POSITION_DAMAGE
  | PACKET_SET_EXTRA_MODS
  | PACKET_ON_STEP_ON_TILE_MOD
  | PACKET_MAX
  deriving DecidableEq, Repr

/-- Enumerators of `PacketType` in declaration order. -/
def PacketType.enumerators : List PacketType :=
  [ .PACKET_STATE, .PACKET_CALL_FUNCTION, .PACKET_UPDATE_STATUS,
    .PACKET_TILE_CHANGE_REQUEST, .PACKET_SEND_MAP_DATA,
    .PACKET_SEND_TILE_UPDATE_DATA, .PACKET_SEND_TILE_UPDATE_DATA_MULTIPLE,
    .PACKET_TILE_ACTIVATE_REQUEST, .PACKET_TILE_APPLY_DAMAGE,
    .PACKET_SEND_INVENTORY_STATE, .PACKET_ITEM_ACTIVATE_REQUEST,
    .PACKET_ITEM_ACTIVATE_OBJECT_REQUEST, .PACKET_SEND_TILE_TREE_STATE,
    .PACKET_MODIFY_ITEM_INVENTORY, .PACKET_ITEM_CHANGE_OBJECT, .PACKET_SEND_LOCK,
    .PACKET_SEND_ITEM_DATABASE_DATA, .PACKET_SEND_PARTICLE_EFFECT,
    .PACKET_SET_ICON_STATE, .PACKET_ITEM_EFFECT, .PACKET_SET_CHARACTER_STATE,
    .PACKET_PING_REPLY, .PACKET_PING_REQUEST, .PACKET_GOT_PUNCHED,
    .PACKET_APP_CHECK_RESPONSE, .PACKET_APP_INTEGRITY_FAIL, .PACKET_DISCONNECT,
    .PACKET_BATTLE_JOIN, .PACKET_BATTLE_EVENT, .PACKET_USE_DOOR,
    .PACKET_SEND_PARENTAL, .PACKET_GONE_FISHIN, .PACKET_STEAM,
    .PACKET_PET_BATTLE, .PACKET_NPC, .PACKET_SPECIAL,
    .PACKET_SEND_PARTICLE_EFFECT_V2, .PACKET_ACTIVE_ARROW_TO_ITEM,
    .PACKET_SELECT_TILE_INDEX, .PACKET_SEND_PLAYER_TRIBUTE_DATA,
    .PACKET_FTUE_SET_ITEM_TO_QUICK_INVENTORY, .PACKET_PVE_NPC,
    .PACKET_PVP_CARD_BATTLE, .PACKET_PVE_APPLY_PLAYER_DAMAGE,
    .PACKET_PVE_NPC_POSITION_DAMAGE, .PACKET_SET_EXTRA_MODS,
    .PACKET_ON_STEP_ON_TILE_MOD, .PACKET_MAX ]

/-- Integer value of an enumerator: no enumerator has an initialiser, so the
first is 0 and each next one is the previous plus one. -/
def PacketType.toNat (p : PacketType) : Nat :=
  PacketType.enumerators.indexOf p

/-- Kind named by an 8-bit tag: the enumerator other than the terminal
`PACKET_MAX` whose integer value is the tag, when there is one. -/
def PacketType.ofTag (t : Nat) : Option PacketType :=
  PacketType.enumerators.find? (fun p => p ≠ .PACKET_MAX ∧ p.toNat = t)

/-- The enumeration `PacketFlag` (underlying type `std::uint32_t`). -/
inductive PacketFlag
  | PACKET_FLAG_NONE
  | PACKET_FLAG_UNK
  | PACKET_FLAG_RESET_VISUAL_STATE
  | PACKET_FLAG_EXTENDED
  | PACKET_FLAG_ROTATE_LEFT
  | PACKET_FLAG_ON_SOLID
  | PACKET_FLAG_ON_FIRE_DAMAGE
  | PACKET_FLAG_ON_JUMP
  | PACKET_FLAG_ON_KILLED
  | PACKET_FLAG_ON_PUNCHED
  | PACKET_FLAG_ON_PLACED
  | PACKET_FLAG_ON_TILE_ACTION
  | PACKET_FLAG_ON_GOT_PUNCHED
  | PACKET_FLAG_ON_RESPAWNED
  | PACKET_FLAG_ON_COLLECT_OBJECT
  | PACKET_FLAG_ON_TRAMPOLINE
  | PACKET_FLAG_ON_DAMAGE
  | PACKET_FLAG_ON_SLIDE
  | PACKET_FLAG_ON_WALL_HANG
  | PACKET_FLAG_ON_ACID_DAMAGE
  deriving DecidableEq, Repr

/-- Integer value of each `PacketFlag` enumerator, as initialised in the
source. -/
def PacketFlag.value : PacketFlag → Nat
  | .PACKET_FLAG_NONE => 0
  | .PACKET_FLAG_UNK => 1 <<< 1
  | .PACKET_FLAG_RESET_VISUAL_STATE => 1 <<< 2
  | .PACKET_FLAG_EXTENDED => 1 <<< 3
  | .PACKET_FLAG_ROTATE_LEFT => 1 <<< 4
  | .PACKET_FLAG_ON_SOLID => 1 <<< 5
  | .PACKET_FLAG_ON_FIRE_DAMAGE => 1 <<< 6
  | .PACKET_FLAG_ON_JUMP => 1 <<< 7
  | .PACKET_FLAG_ON_KILLED => 1 <<< 8
  | .PACKET_FLAG_ON_PUNCHED => 1 <<< 9
  | .PACKET_FLAG_ON_PLACED => 1 <<< 10
  | .PACKET_FLAG_ON_TILE_ACTION => 1 <<< 11
  | .PACKET_FLAG_ON_GOT_PUNCHED => 1 <<< 12
  | .PACKET_FLAG_ON_RESPAWNED => 1 <<< 13
  | .PACKET_FLAG_ON_COLLECT_OBJECT => 1 <<< 14
  | .PACKET_FLAG_ON_TRAMPOLINE => 1 <<< 15
  | .PACKET_FLAG_ON_DAMAGE => 1 <<< 16
  | .PACKET_FLAG_ON_SLIDE => 1 <<< 17
  | .PACKET_FLAG_ON_WALL_HANG => 1 <<< 21
  | .PACKET_FLAG_ON_ACID_DAMAGE => 1 <<< 26

/-- All `PacketFlag` enumerators in declaration order. -/
def PacketFlag.enumerators : List PacketFlag :=
  [ .PACKET_FLAG_NONE, .PACKET_FLAG_UNK, .PACKET_FLAG_RESET_VISUAL_STATE,
    .PACKET_FLAG_EXTENDED, .PACKET_FLAG_ROTATE_LEFT, .PACKET_FLAG_ON_SOLID,
    .PACKET_FLAG_ON_FIRE_DAMAGE, .PACKET_FLAG_ON_JUMP, .PACKET_FLAG_ON_KILLED,
    .PACKET_FLAG_ON_PUNCHED, .PACKET_FLAG_ON_PLACED, .PACKET_FLAG_ON_TILE_ACTION,
    .PACKET_FLAG_ON_GOT_PUNCHED, .PACKET_FLAG_ON_RESPAWNED,
    .PACKET_FLAG_ON_COLLECT_OBJECT, .PACKET_FLAG_ON_TRAMPOLINE,
    .PACKET_FLAG_ON_DAMAGE, .PACKET_FLAG_ON_SLIDE, .PACKET_FLAG_ON_WALL_HANG,
    .PACKET_FLAG_ON_ACID_DAMAGE ]

/-- Bitwise OR of the values of a collection of flags, starting from
`PACKET_FLAG_NONE`. -/
def PacketFlag.combine (s : List PacketFlag) : Nat :=
  s.foldr (fun g acc => g.value ||| acc) PacketFlag.PACKET_FLAG_NONE.value

/-- Index of the lowest set bit of a flag constant among bits 0..31 (0 for
`PACKET_FLAG_NONE`, which has none). -/
def PacketFlag.bitIndex (f : PacketFlag) : Nat :=
  ((List.range 32).find? (fun k => f.value.testBit k)).getD 0

/-! ## The flags word of `GameUpdatePacket` -/

/-- Members of the anonymous bit-field struct inside the union
`GameUpdatePacket::flags`, named as in the source. -/
inductive FlagField
  | none
  | unk
  | reset_visual_state
  | extended
  | rotate_left
  | on_solid
  | on_fire_damage
  | on_jump
  | on_killed
  | on_punched
  | on_placed
  | on_tile_action
  | on_got_punched
  | on_respawned
  | on_collect_object
  | on_trampoline
  | on_damage
  | on_slide
  | pad_1
  | on_wall_hang
  | pad_2
  | on_acid_damage
  | pad_3
  deriving DecidableEq, Repr

/-- Declared width in bits of each bit-field. -/
def FlagField.width : FlagField → Nat
  | .pad_1 => 3
  | .pad_2 => 3
  | .pad_3 => 6
  | _ => 1

/-- Bit-fields of the struct in declaration order. -/
def FlagField.declared : List FlagField :=
  [ .none, .unk, .reset_visual_state, .extended, .rotate_left, .on_solid,
    .on_fire_damage, .on_jump, .on_killed, .on_punched, .on_placed,
    .on_tile_action, .on_got_punched, .on_respawned, .on_collect_object,
    .on_trampoline, .on_damage, .on_slide, .pad_1, .on_wall_hang, .pad_2,
    .on_acid_damage, .pad_3 ]

/-- Whether the field is one of the reserved ones (`pad_1`, `pad_2`, `pad_3`). -/
def FlagField.isReserved : FlagField → Bool
  | .pad_1 => true
  | .pad_2 => true
  | .pad_3 => true
  | _ => false

/-- Position of the lowest bit of a field inside the 32-bit storage unit:
fields are allocated from the least significant bit, each one directly after
the fields declared before it. -/
def FlagField.bitOffset (f : FlagField) : Nat :=
  ((FlagField.declared.takeWhile (fun g => g ≠ f)).map FlagField.width).sum

/-- Bits of the storage unit occupied by a field. -/
def FlagField.mask (f : FlagField) : Nat :=
  (2 ^ f.width - 1) <<< f.bitOffset

/-- Whether bit `i` of the storage unit belongs to field `f`. -/
def FlagField.covers (f : FlagField) (i : Nat) : Bool :=
  decide (f.bitOffset ≤ i) && decide (i < f.bitOffset + f.width)

/-- Reading a bit-field through the named-bit view of the word `w`. -/
def readField (w : Nat) (f : FlagField) : Nat :=
  (w >>> f.bitOffset) % 2 ^ f.width

/-- Assigning `v` to a bit-field through the named-bit view of the word `w`:
the value is reduced modulo `2 ^ width`, the bits of the field are replaced
and the rest of the storage unit is kept. -/
def writeField (w : Nat) (f : FlagField) (v : Nat) : Nat :=
  (w ^^^ (w &&& f.mask)) ||| ((v % 2 ^ f.width) <<< f.bitOffset)

/-- Testing a named bit: the bit-field converted to `bool`. -/
def testField (w : Nat) (f : FlagField) : Bool :=
  decide (readField w f ≠ 0)

/-- The integer view (`flags.value`) of a struct given by the values of its
bit-fields. -/
def assemble (g : FlagField → Nat) : Nat :=
  FlagField.declared.foldr
    (fun f acc => ((g f % 2 ^ f.width) <<< f.bitOffset) ||| acc) 0

/-- The `PacketFlag` constant carrying the name of a bit-field
(`on_jump` and `PACKET_FLAG_ON_JUMP`, and so on); reserved fields have none. -/
def FlagField.constant : FlagField → Option PacketFlag
  | .none => some .PACKET_FLAG_NONE
  | .unk => some .PACKET_FLAG_UNK
  | .reset_visual_state => some .PACKET_FLAG_RESET_VISUAL_STATE
  | .extended => some .PACKET_FLAG_EXTENDED
  | .rotate_left => some .PACKET_FLAG_ROTATE_LEFT
  | .on_solid => some .PACKET_FLAG_ON_SOLID
  | .on_fire_damage => some .PACKET_FLAG_ON_FIRE_DAMAGE
  | .on_jump => some .PACKET_FLAG_ON_JUMP
  | .on_killed => some .PACKET_FLAG_ON_KILLED
  | .on_punched => some .PACKET_FLAG_ON_PUNCHED
  | .on_placed => some .PACKET_FLAG_ON_PLACED
  | .on_tile_action => some .PACKET_FLAG_ON_TILE_ACTION
  | .on_got_punched => some .PACKET_FLAG_ON_GOT_PUNCHED
  | .on_respawned => some .PACKET_FLAG_ON_RESPAWNED
  | .on_collect_object => some .PACKET_FLAG_ON_COLLECT_OBJECT
  | .on_trampoline => some .PACKET_FLAG_ON_TRAMPOLINE
  | .on_damage => some .PACKET_FLAG_ON_DAMAGE
  | .on_slide => some .PACKET_FLAG_ON_SLIDE
  | .on_wall_hang => some .PACKET_FLAG_ON_WALL_HANG
  | .on_acid_damage => some .PACKET_FLAG_ON_ACID_DAMAGE
  | .pad_1 => Option.none
  | .pad_2 => Option.none
  | .pad_3 => Option.none

/-- The named bits the flag constants are compared with: every named
bit-field except `none`. -/
def FlagField.named : List FlagField :=
  [ .unk, .reset_visual_state, .extended, .rotate_left, .on_solid,
    .on_fire_damage, .on_jump, .on_killed, .on_punched, .on_placed,
    .on_tile_action, .on_got_punched, .on_respawned, .on_collect_object,
    .on_trampoline, .on_damage, .on_slide, .on_wall_hang, .on_acid_damage ]

/-- The struct in which the listed fields hold 1 and every other field 0. -/
def onlyBits (xs : List FlagField) : FlagField → Nat :=
  fun f => if f ∈ xs then 1 else 0

/-! ## Layout of `GameUpdatePacket` -/

/-- Object types occurring in the declaration of `GameUpdatePacket`. -/
inductive CType
  | uint8_t
  | uint32_t
  | enumeration (underlying : CType)
  | array (elem : CType) (count : Nat)
  | bitFields (unit : CType) (widths : List Nat)
  | union2 (a b : CType)
  deriving DecidableEq, Repr

/-- Size in bytes of an object type (`sizeof`). A struct of bit-fields takes
as many storage units as its widths need. -/
def CType.sizeof : CType → Nat
  | .uint8_t => 1
  | .uint32_t => 4
  | .enumeration u => u.sizeof
  | .array e n => n * e.sizeof
  | .bitFields u ws => ((ws.sum + 8 * u.sizeof - 1) / (8 * u.sizeof)) * u.sizeof
  | .union2 a b => max a.sizeof b.sizeof

/-- Natural alignment in bytes of an object type (`alignof`). -/
def CType.alignof : CType → Nat
  | .uint8_t => 1
  | .uint32_t => 4
  | .enumeration u => u.alignof
  | .array e _ => e.alignof
  | .bitFields u _ => u.alignof
  | .union2 a b => max a.alignof b.alignof

/-- Data members of `struct GameUpdatePacket`, named as in the source. -/
inductive Member
  | type
  | pad
  | net_id
  | pad_2
  | flags
  | pad_3
  | decompressed_data_size
  | pad_4
  | data_size
  deriving DecidableEq, Repr

/-- Data members in declaration order. -/
def Member.declared : List Member :=
  [ .type, .pad, .net_id, .pad_2, .flags, .pad_3, .decompressed_data_size,
    .pad_4, .data_size ]

/-- Declared type of each data member. -/
def Member.ctype : Member → CType
  | .type => .enumeration .uint8_t
  | .pad => .array .uint8_t 3
  | .net_id => .uint32_t
  | .pad_2 => .array .uint8_t 4
  | .flags => .union2 (.enumeration .uint32_t)
      (.bitFields .uint32_t (FlagField.declared.map FlagField.width))
  | .pad_3 => .array .uint8_t 4
  | .decompressed_data_size => .uint32_t
  | .pad_4 => .array .uint8_t 28
  | .data_size => .uint32_t

/-- Size in bytes of a data member. -/
def Member.size (m : Member) : Nat :=
  m.ctype.sizeof

/-- Smallest multiple of `a` that is at least `n`. -/
def alignUp (n a : Nat) : Nat :=
  ((n + a - 1) / a) * a

/-- Alignment of a member under `#pragma pack(k)`: the natural alignment
capped by `k`. -/
def Member.packedAlign (k : Nat) (m : Member) : Nat :=
  min k m.ctype.alignof

/-- Offsets assigned to a list of members laid out one after another from
byte `cur` under `#pragma pack(k)`, and the end of the last member. -/
def layoutFrom (k : Nat) : Nat → List Member → List (Member × Nat) × Nat
  | cur, [] => ([], cur)
  | cur, m :: ms =>
    let off := alignUp cur (m.packedAlign k)
    let rest := layoutFrom k (off + m.size) ms
    ((m, off) :: rest.1, rest.2)

/-- The pack value in force at the declaration: `#pragma pack(push, 1)`. -/
def packValue : Nat := 1

/-- Byte offset of a member of `GameUpdatePacket` (`offsetof`). -/
def Member.offset (m : Member) : Nat :=
  (((layoutFrom packValue 0 Member.declared).1.find? (fun e => e.1 = m)).map
    Prod.snd).getD 0

/-- Size of the fixed header, `sizeof(GameUpdatePacket)`: the end of the last
member rounded up to the alignment of the struct. -/
def sizeofGameUpdatePacket : Nat :=
  alignUp (layoutFrom packValue 0 Member.declared).2
    ((Member.declared.map (Member.packedAlign packValue)).foldr max 1)

/-- Values held by a `GameUpdatePacket`: integers for the scalar members and
byte lists for the reserved arrays. -/
structure GameUpdatePacket where
  type : Nat
  pad : List Nat
  net_id : Nat
  pad_2 : List Nat
  flags : Nat
  pad_3 : List Nat
  decompressed_data_size : Nat
  pad_4 : List Nat
  data_size : Nat
  deriving DecidableEq, Repr

/-- Size on the wire of a frame, following the invariant of the
specification: the fixed-header size plus the trailing-payload size held in
`data_size`. -/
def onWireSize (p : GameUpdatePacket) : Nat :=
  sizeofGameUpdatePacket + p.data_size

/-! ## Typed bindings -/

/-- Template `NetMessage<MsgType, Channel = 0>`; its objects have no data
members. -/
structure NetMessage (MsgType : NetMessageType) (Channel : Int := 0) where
  deriving DecidableEq, Repr

/-- Static member `MESSAGE_TYPE` of `NetMessage`. -/
def NetMessage.MESSAGE_TYPE {MsgType : NetMessageType} {Channel : Int}
    (_self : NetMessage MsgType Channel) : NetMessageType :=
  MsgType

/-- Static member `CHANNEL` of `NetMessage`. -/
def NetMessage.CHANNEL {MsgType : NetMessageType} {Channel : Int}
    (_self : NetMessage MsgType Channel) : Int :=
  Channel

/-- Default `NetMessage::read(TextParse&) const`: `return false`. The type
`TextParse` is a parameter. -/
def NetMessage.read {MsgType : NetMessageType} {Channel : Int} {TextParse : Type}
    (_self : NetMessage MsgType Channel) (_tp : TextParse) : Bool :=
  false

/-- Default `NetMessage::write(ByteStream<std::uint16_t>&)`: empty body. The
result is the writer stream after the call. -/
def NetMessage.write {MsgType : NetMessageType} {Channel : Int} {ByteStream : Type}
    (_self : NetMessage MsgType Channel) (bs : ByteStream) : ByteStream :=
  bs

/-- Template `NetPacket<PktType, Channel = 0>`; its objects have no data
members. -/
structure NetPacket (PktType : PacketType) (Channel : Int := 0) where
  deriving DecidableEq, Repr

/-- Static member `MESSAGE_TYPE` of `NetPacket`. -/
def NetPacket.MESSAGE_TYPE {PktType : PacketType} {Channel : Int}
    (_self : NetPacket PktType Channel) : NetMessageType :=
  NetMessageType.NET_MESSAGE_GAME_PACKET

/-- Static member `PACKET_TYPE` of `NetPacket`. -/
def NetPacket.PACKET_TYPE {PktType : PacketType} {Channel : Int}
    (_self : NetPacket PktType Channel) : PacketType :=
  PktType

/-- Static member `CHANNEL` of `NetPacket`. -/
def NetPacket.CHANNEL {PktType : PacketType} {Channel : Int}
    (_self : NetPacket PktType Channel) : Int :=
  Channel

/-- Default `NetPacket::read(const GameUpdatePacket&) const`: `return false`. -/
def NetPacket.read {PktType : PacketType} {Channel : Int}
    (_self : NetPacket PktType Channel) (_tp : GameUpdatePacket) : Bool :=
  false

/-- Default `NetPacket::write(GameUpdatePacket&, std::vector<std::byte>&)`:
empty body. The result is the pair of both reference arguments after the
call. -/
def NetPacket.write {PktType : PacketType} {Channel : Int}
    (_self : NetPacket PktType Channel) (pkt : GameUpdatePacket) (ext : List Nat) :
    GameUpdatePacket × List Nat :=
  (pkt, ext)

end packet

namespace server

/-! ## Bootstrap handler (`Http::listen_internal`, POST `/growtopia/server_data.php`) -/

/-- Text is a sequence of characters (`std::string`). -/
abbrev Text := List Char

/-- Splitting a text at every occurrence of the delimiter `d`; the pieces
between delimiters are kept, empty ones included. -/
def tokenize (d : Char) : Text → List Text
  | [] => [[]]
  | c :: cs =>
    if c = d then [] :: tokenize d cs
    else
      match tokenize d cs with
      | [] => [[c]]
      | t :: ts => (c :: t) :: ts

/-- Joining pieces with the delimiter `d` between consecutive ones. -/
def joinWith (d : Char) : List Text → Text
  | [] => []
  | [t] => t
  | t :: t2 :: ts => t ++ d :: joinWith d (t2 :: ts)

/-- Modelled from the spec: the class `TextParse` of `utils/text_parse.hpp`,
which is not among the sources. It is the token map of a control frame: the
records in insertion order, each a key with its values. -/
abbrev TextParse := List (Text × List Text)

/-- Modelled from the spec: the text codec `parse` (the constructor
`TextParse{ raw }`). The raw text is split at the record delimiter `rd` and
each record at the field delimiter `fd`; the first piece is the key, the rest
are its values; a record without a field delimiter is skipped. -/
def TextParse.parse (rd fd : Char) (raw : Text) : TextParse :=
  (tokenize rd raw).filterMap (fun r =>
    match tokenize fd r with
    | k :: v :: vs => some (k, v :: vs)
    | _ => none)

/-- Modelled from the spec: the text codec `serialize` (`TextParse::get_raw`),
mirroring the delimiters `parse` accepts: key and values of a record joined
with `fd`, records joined with `rd`. -/
def TextParse.get_raw (rd fd : Char) (tp : TextParse) : Text :=
  joinWith rd (tp.map (fun r => joinWith fd (r.1 :: r.2)))

/-- Modelled from the spec: first-match lookup of a key in the token map. -/
def TextParse.get : TextParse → Text → Option (List Text)
  | [], _ => none
  | (k2, vs2) :: tp, k => if k2 = k then some vs2 else TextParse.get tp k

/-- Modelled from the spec: `TextParse::set(key, values)`, known from its call
sites in the handler only. The values of the first record with that key are
replaced; when there is none a record is appended, keeping insertion
order. -/
def TextParse.set : TextParse → Text → List Text → TextParse
  | [], k, vs => [(k, vs)]
  | (k2, vs2) :: tp, k, vs =>
    if k2 = k then (k, vs) :: tp else (k2, vs2) :: TextParse.set tp k vs

/-- Decimal rendering of an `int` (`std::to_string`). -/
def to_string (n : Int) : Text :=
  if n < 0 then '-' :: Nat.toDigits 10 n.natAbs else Nat.toDigits 10 n.natAbs

/-- Body of the POST handler for `/growtopia/server_data.php`, after logging:
`upstream` is the text returned by `get_server_data` (empty when the lookup
fails), `port` the configured `server.port`; the result is the content set on
the response. -/
def serverDataHandler (rd fd : Char) (upstream : Text) (port : Int) : Text :=
  let text_parse := TextParse.parse rd fd upstream
  let text_parse := TextParse.set text_parse "server".toList ["127.0.0.1".toList]
  let text_parse := TextParse.set text_parse "port".toList [to_string port]
  let text_parse := TextParse.set text_parse "type2".toList ["1".toList]
  TextParse.get_raw rd fd text_parse

/-- A token map is well formed for the delimiters when every record has at
least one value and no key or value contains a delimiter. -/
def TextParse.WellFormed (rd fd : Char) (tp : TextParse) : Prop :=
  ∀ r ∈ tp, r.2 ≠ [] ∧ ∀ t ∈ r.1 :: r.2, rd ∉ t ∧ fd ∉ t

/-- Characters the handler itself puts into keys and values. -/
def handlerChars : List Char :=
  "serverporttype2127.0.0.1-0123456789".toList

end server

namespace packet

/-! ## Bit-level lemmas -/

theorem testBit_foldr_or {α : Type} (h : α → Nat) (l : List α) (i : Nat) :
    (l.foldr (fun a acc => h a ||| acc) 0).testBit i
      = l.any (fun a => (h a).testBit i) := by
  induction l with
  | nil => simp
  | cons a l ih => simp [List.foldr, Nat.testBit_or, ih]

theorem and_two_pow_ne_zero_iff (x k : Nat) :
    x &&& 2 ^ k ≠ 0 ↔ x.testBit k = true := by
  constructor
  · intro h
    by_contra hk
    apply h
    apply Nat.eq_of_testBit_eq
    intro j
    simp only [Nat.testBit_and, Nat.testBit_two_pow, Nat.zero_testBit]
    by_cases hj : k = j
    · subst hj; simp [hk]
    · simp [hj]
  · intro h h0
    have := congrArg (fun y => y.testBit k) h0
    simp [Nat.testBit_and, Nat.testBit_two_pow, h] at this

theorem FlagField.testBit_mask (f : FlagField) (i : Nat) :
    f.mask.testBit i = f.covers i := by
  unfold FlagField.mask FlagField.covers
  rw [Nat.testBit_shiftLeft, Nat.testBit_two_pow_sub_one]
  by_cases h : f.bitOffset ≤ i
  · have : (i - f.bitOffset < f.width) ↔ (i < f.bitOffset + f.width) := by omega
    simp [h, this]
  · simp [h]

theorem testBit_readField (w : Nat) (f : FlagField) (j : Nat) :
    (readField w f).testBit j
      = (decide (j < f.width) && w.testBit (f.bitOffset + j)) := by
  unfold readField
  rw [Nat.testBit_mod_two_pow, Nat.testBit_shiftRight]

theorem testBit_writeField (w : Nat) (f : FlagField) (v i : Nat) :
    (writeField w f v).testBit i
      = if f.covers i then v.testBit (i - f.bitOffset) else w.testBit i := by
  unfold writeField
  rw [Nat.testBit_or, Nat.testBit_xor, Nat.testBit_and, FlagField.testBit_mask,
    Nat.testBit_shiftLeft, Nat.testBit_mod_two_pow]
  by_cases hc : f.covers i = true
  · have hc2 := hc
    unfold FlagField.covers at hc2
    simp only [Bool.and_eq_true, decide_eq_true_eq] at hc2
    have h1 : i - f.bitOffset < f.width := by omega
    simp [hc, hc2.1, h1]
  · have hc2 := hc
    unfold FlagField.covers at hc2
    simp only [Bool.and_eq_true, decide_eq_true_eq, not_and, not_lt] at hc2
    simp only [Bool.not_eq_true] at hc
    by_cases h0 : f.bitOffset ≤ i
    · have h1 : ¬ (i - f.bitOffset < f.width) := by have := hc2 h0; omega
      simp [hc, h0, h1]
    · simp [hc, h0]

theorem readField_writeField (w : Nat) (f : FlagField) (v : Nat) :
    readField (writeField w f v) f = v % 2 ^ f.width := by
  apply Nat.eq_of_testBit_eq
  intro j
  rw [testBit_readField, testBit_writeField, Nat.testBit_mod_two_pow]
  by_cases hj : j < f.width
  · have hc : f.covers (f.bitOffset + j) = true := by
      unfold FlagField.covers
      simp [hj]
    simp [hj, hc]
  · simp [hj]

theorem writeField_lt (w : Nat) (f : FlagField) (v : Nat) (hw : w < 2 ^ 32) :
    writeField w f v < 2 ^ 32 := by
  apply Nat.lt_pow_two_of_testBit
  intro i hi
  rw [testBit_writeField]
  have hcov : f.covers i = false := by
    have hall : ∀ g : FlagField, g.bitOffset + g.width ≤ 32 := by
      intro g; cases g <;> decide
    have := hall f
    unfold FlagField.covers
    have h2 : ¬ (i < f.bitOffset + f.width) := by omega
    simp [h2]
  simp only [hcov, Bool.false_eq_true, if_false]
  exact Nat.testBit_lt_two_pow (lt_of_lt_of_le hw (Nat.pow_le_pow_right (by decide) hi))

/-! ## The two views of the flags word -/

theorem testBit_assemble (g : FlagField → Nat) (i : Nat) :
    (assemble g).testBit i
      = FlagField.declared.any (fun f => f.covers i && (g f).testBit (i - f.bitOffset)) := by
  unfold assemble
  rw [testBit_foldr_or (fun f => (g f % 2 ^ f.width) <<< f.bitOffset)]
  congr 1
  funext f
  rw [Nat.testBit_shiftLeft, Nat.testBit_mod_two_pow]
  unfold FlagField.covers
  by_cases h : f.bitOffset ≤ i
  · have : (i - f.bitOffset < f.width) ↔ (i < f.bitOffset + f.width) := by omega
    simp [h, this]
  · simp [h]

theorem covers_some_of_lt (i : Nat) (hi : i < 32) :
    FlagField.declared.any (fun f => f.covers i) = true := by
  interval_cases i <;> decide

theorem assemble_readField (v : Nat) (hv : v < 2 ^ 32) :
    assemble (readField v) = v := by
  apply Nat.eq_of_testBit_eq
  intro i
  rw [testBit_assemble]
  have hfun : (fun f : FlagField => f.covers i && (readField v f).testBit (i - f.bitOffset))
      = (fun f : FlagField => f.covers i && v.testBit i) := by
    funext f
    rw [testBit_readField]
    by_cases hc : f.covers i = true
    · have hc2 := hc
      unfold FlagField.covers at hc2
      simp only [Bool.and_eq_true, decide_eq_true_eq] at hc2
      have h1 : i - f.bitOffset < f.width := by omega
      have h2 : f.bitOffset + (i - f.bitOffset) = i := by omega
      simp [hc, h1, h2]
    · simp only [Bool.not_eq_true] at hc
      simp [hc]
  rw [hfun]
  by_cases hi : i < 32
  · have hex := covers_some_of_lt i hi
    rw [List.any_eq_true] at hex
    obtain ⟨f, hf, hcf⟩ := hex
    cases hb : v.testBit i
    · simp
    · rw [List.any_eq_true]
      exact ⟨f, hf, by simp [hcf]⟩
  · have hz : v.testBit i = false :=
      Nat.testBit_lt_two_pow (lt_of_lt_of_le hv (Nat.pow_le_pow_right (by decide) (by omega)))
    simp [hz]

/-- C1 (code defect at `on_acid_damage`). For every named bit other than
`on_acid_damage`, the flags word in which only that bit-field holds 1 has the
integer value of the `PacketFlag` constant of the same name, and the word with
exactly `on_jump` and `on_respawned` set is `(1<<7) | (1<<13)`. For
`on_acid_damage` the two views disagree: the bit-field is bit 25 of the word
(raw value `1 << 25`), while `PACKET_FLAG_ON_ACID_DAMAGE` is `1 << 26`, a bit
that belongs to the reserved field `pad_3`. -/
theorem flag_views_agree_except_on_acid_damage :
    (∀ f ∈ FlagField.named, f ≠ FlagField.on_acid_damage →
        (f.constant.map PacketFlag.value) = some (assemble (onlyBits [f])))
    ∧ assemble (onlyBits [.on_jump, .on_respawned]) = (1 <<< 7) ||| (1 <<< 13)
    ∧ FlagField.on_acid_damage.constant = some PacketFlag.PACKET_FLAG_ON_ACID_DAMAGE
    ∧ assemble (onlyBits [.on_acid_damage]) = 1 <<< 25
    ∧ PacketFlag.PACKET_FLAG_ON_ACID_DAMAGE.value = 1 <<< 26
    ∧ assemble (onlyBits [.on_acid_damage]) ≠ PacketFlag.PACKET_FLAG_ON_ACID_DAMAGE.value
    ∧ FlagField.pad_3.covers 26 = true := by
  refine ⟨?_, ?_, ?_, ?_, ?_, ?_, ?_⟩ <;> decide

/-- C2. For every 32-bit flags word `w` and every named bit `f` of the
bit-field struct: after assigning 1 to `f` the test of `f` is true, after
assigning 0 it is false, in both cases the word stays a 32-bit word and every
bit of the raw integer other than the bit of `f` is the same as in `w`. -/
theorem set_clear_test_named_bit (w : Nat) (f : FlagField)
    (hw : w < 2 ^ 32) (hf : f.isReserved = false) :
    testField (writeField w f 1) f = true
    ∧ testField (writeField w f 0) f = false
    ∧ writeField w f 1 < 2 ^ 32 ∧ writeField w f 0 < 2 ^ 32
    ∧ f.bitOffset < 32
    ∧ (∀ i, i ≠ f.bitOffset →
        (writeField w f 1).testBit i = w.testBit i
        ∧ (writeField w f 0).testBit i = w.testBit i) := by
  have hwidth : f.width = 1 := by cases f <;> first | rfl | (exfalso; revert hf; decide)
  have hoff : f.bitOffset < 32 := by cases f <;> decide
  refine ⟨?_, ?_, writeField_lt w f 1 hw, writeField_lt w f 0 hw, hoff, ?_⟩
  · unfold testField
    rw [readField_writeField, hwidth]
    decide
  · unfold testField
    rw [readField_writeField, hwidth]
    decide
  · intro i hi
    have hc : f.covers i = false := by
      unfold FlagField.covers
      rw [hwidth]
      by_cases h1 : f.bitOffset ≤ i
      · have : ¬ (i < f.bitOffset + 1) := by omega
        simp [this]
      · simp [h1]
    constructor <;> rw [testBit_writeField] <;> simp [hc]

/-- Witness of C2 at the word `0xDEADBEEF` and the named bit `on_jump`. -/
theorem set_clear_test_named_bit_witness :
    testField (writeField 0xDEADBEEF FlagField.on_jump 1) FlagField.on_jump = true
    ∧ testField (writeField 0xDEADBEEF FlagField.on_jump 0) FlagField.on_jump = false
    ∧ writeField 0xDEADBEEF FlagField.on_jump 1 < 2 ^ 32
    ∧ writeField 0xDEADBEEF FlagField.on_jump 0 < 2 ^ 32
    ∧ FlagField.on_jump.bitOffset < 32
    ∧ (∀ i, i ≠ FlagField.on_jump.bitOffset →
        (writeField 0xDEADBEEF FlagField.on_jump 1).testBit i = (0xDEADBEEF : Nat).testBit i
        ∧ (writeField 0xDEADBEEF FlagField.on_jump 0).testBit i
            = (0xDEADBEEF : Nat).testBit i) :=
  set_clear_test_named_bit 0xDEADBEEF FlagField.on_jump (by decide) (by decide)

/-- C4. The bit-fields of the named-bit view (named bits and the reserved
fields `pad_1`, `pad_2`, `pad_3`) have widths summing to 32, every one of the
32 bits of the word belongs to exactly one field and no field reaches beyond
bit 31; hence for every 32-bit raw value `v`, reading all bit-fields of `v`
and reassembling the raw integer from them gives `v` again, the reserved
fields holding their bits of `v` (not zero). -/
theorem flags_fields_roundtrip (v : Nat) (hv : v < 2 ^ 32) :
    (FlagField.declared.map FlagField.width).sum = 32
    ∧ FlagField.declared.Nodup
    ∧ (∀ f : FlagField, f ∈ FlagField.declared ∧ f.bitOffset + f.width ≤ 32)
    ∧ (∀ i, i < 32 → (FlagField.declared.filter (fun f => f.covers i)).length = 1)
    ∧ assemble (readField v) = v
    ∧ (∀ f : FlagField, ∀ j, j < f.width →
        (readField v f).testBit j = v.testBit (f.bitOffset + j)) := by
  refine ⟨by decide, by decide, ?_, ?_, assemble_readField v hv, ?_⟩
  · intro f
    cases f <;> decide
  · intro i hi
    interval_cases i <;> decide
  · intro f j hj
    rw [testBit_readField]
    simp [hj]

/-- Witness of C4 at a raw value with all reserved bits set (`0xFDDC0000` is
`pad_1`, `pad_2` and `pad_3` all ones) and a few named bits. -/
theorem flags_fields_roundtrip_witness :
    (FlagField.declared.map FlagField.width).sum = 32
    ∧ FlagField.declared.Nodup
    ∧ (∀ f : FlagField, f ∈ FlagField.declared ∧ f.bitOffset + f.width ≤ 32)
    ∧ (∀ i, i < 32 → (FlagField.declared.filter (fun f => f.covers i)).length = 1)
    ∧ assemble (readField 0xFDDC2080) = 0xFDDC2080
    ∧ (∀ f : FlagField, ∀ j, j < f.width →
        (readField 0xFDDC2080 f).testBit j = (0xFDDC2080 : Nat).testBit (f.bitOffset + j)) :=
  flags_fields_roundtrip 0xFDDC2080 (by decide)

/-! ## Flag constants -/

theorem PacketFlag.value_eq_two_pow (f : PacketFlag)
    (hf : f ≠ PacketFlag.PACKET_FLAG_NONE) : f.value = 2 ^ f.bitIndex := by
  cases f <;> first | (exfalso; exact hf rfl) | decide

theorem PacketFlag.testBit_value_iff (g f : PacketFlag)
    (hf : f ≠ PacketFlag.PACKET_FLAG_NONE) :
    g.value.testBit f.bitIndex = true ↔ g = f := by
  cases f <;> first | (exfalso; exact hf rfl) | (cases g <;> decide)

theorem PacketFlag.testBit_combine (s : List PacketFlag) (i : Nat) :
    (PacketFlag.combine s).testBit i = s.any (fun g => g.value.testBit i) := by
  unfold PacketFlag.combine
  exact testBit_foldr_or PacketFlag.value s i

/-- C3. Every `PacketFlag` constant `f` other than `PACKET_FLAG_NONE` is a
single bit below bit 32 and shares no bit with any other constant; for every
collection `s` of constants, the OR of `s` masked with `f` is non-zero exactly
when `f` is a member of `s`; `PACKET_FLAG_NONE` is 0 and is neutral for OR. -/
theorem flags_combine_and_test (s : List PacketFlag) (f : PacketFlag)
    (hf : f ≠ PacketFlag.PACKET_FLAG_NONE) :
    (∃ k, k < 32 ∧ f.value = 2 ^ k ∧ ∀ j, f.value.testBit j = true ↔ j = k)
    ∧ (∀ g : PacketFlag, g ≠ f → g.value &&& f.value = 0)
    ∧ ((PacketFlag.combine s &&& f.value ≠ 0) ↔ f ∈ s)
    ∧ PacketFlag.PACKET_FLAG_NONE.value = 0
    ∧ PacketFlag.combine [] = PacketFlag.PACKET_FLAG_NONE.value
    ∧ (∀ x : Nat, x ||| PacketFlag.PACKET_FLAG_NONE.value = x
        ∧ PacketFlag.PACKET_FLAG_NONE.value ||| x = x) := by
  have hv := PacketFlag.value_eq_two_pow f hf
  refine ⟨⟨f.bitIndex, ?_, hv, ?_⟩, ?_, ?_, rfl, rfl, ?_⟩
  · cases f <;> decide
  · intro j
    rw [hv, Nat.testBit_two_pow]
    simp [eq_comm]
  · intro g hg
    by_contra hne
    rw [hv] at hne
    have hb := (and_two_pow_ne_zero_iff g.value f.bitIndex).mp hne
    exact hg ((PacketFlag.testBit_value_iff g f hf).mp hb)
  · rw [hv, and_two_pow_ne_zero_iff, PacketFlag.testBit_combine, List.any_eq_true]
    constructor
    · rintro ⟨g, hg, hb⟩
      rw [PacketFlag.testBit_value_iff g f hf] at hb
      exact hb ▸ hg
    · intro hmem
      exact ⟨f, hmem, (PacketFlag.testBit_value_iff f f hf).mpr rfl⟩
  · intro x
    constructor
    · show x ||| 0 = x
      simp
    · show 0 ||| x = x
      simp

/-- Witness of C3 at the set {on_jump, on_respawned} and the constant
`PACKET_FLAG_ON_RESPAWNED`. -/
theorem flags_combine_and_test_witness :
    (∃ k, k < 32 ∧ PacketFlag.PACKET_FLAG_ON_RESPAWNED.value = 2 ^ k
        ∧ ∀ j, PacketFlag.PACKET_FLAG_ON_RESPAWNED.value.testBit j = true ↔ j = k)
    ∧ (∀ g : PacketFlag, g ≠ PacketFlag.PACKET_FLAG_ON_RESPAWNED →
        g.value &&& PacketFlag.PACKET_FLAG_ON_RESPAWNED.value = 0)
    ∧ ((PacketFlag.combine [.PACKET_FLAG_ON_JUMP, .PACKET_FLAG_ON_RESPAWNED]
          &&& PacketFlag.PACKET_FLAG_ON_RESPAWNED.value ≠ 0)
        ↔ PacketFlag.PACKET_FLAG_ON_RESPAWNED
            ∈ [PacketFlag.PACKET_FLAG_ON_JUMP, PacketFlag.PACKET_FLAG_ON_RESPAWNED])
    ∧ PacketFlag.PACKET_FLAG_NONE.value = 0
    ∧ PacketFlag.combine [] = PacketFlag.PACKET_FLAG_NONE.value
    ∧ (∀ x : Nat, x ||| PacketFlag.PACKET_FLAG_NONE.value = x
        ∧ PacketFlag.PACKET_FLAG_NONE.value ||| x = x) :=
  flags_combine_and_test [.PACKET_FLAG_ON_JUMP, .PACKET_FLAG_ON_RESPAWNED]
    PacketFlag.PACKET_FLAG_ON_RESPAWNED (by decide)

/-! ## Header layout -/

/-- C5 as stated fails: the packet kind tag `type` is not 4 bytes (its type
`PacketType` has underlying type `std::uint8_t`), so the member sizes in wire
order are not 4, 3, 4, 4, 4, 4, 4, 28, 4. -/
theorem header_sizes_not_as_claimed :
    Member.type.size ≠ 4
    ∧ Member.declared.map Member.size ≠ [4, 3, 4, 4, 4, 4, 4, 28, 4] := by
  constructor <;> decide

/-- C5 (amended). The fixed header of `GameUpdatePacket` consists, in wire
order (increasing offsets, which is declaration order), of exactly: packet
kind tag 1 byte, 3 reserved pad bytes (tag and pad together 4 bytes), network
object identifier 4 bytes, 4 reserved pad bytes, event flag bitset 4 bytes,
4 reserved pad bytes, uncompressed-payload-size 4 bytes, 28 reserved bytes,
trailing-payload-size 4 bytes. -/
theorem header_fields_and_sizes :
    Member.declared.map (fun m => (m, m.size))
      = [ (.type, 1), (.pad, 3), (.net_id, 4), (.pad_2, 4), (.flags, 4),
          (.pad_3, 4), (.decompressed_data_size, 4), (.pad_4, 28), (.data_size, 4) ]
    ∧ Member.type.ctype = CType.enumeration CType.uint8_t
    ∧ Member.type.size + Member.pad.size = 4
    ∧ (Member.declared.map Member.offset).Pairwise (fun a b => a < b)
    ∧ (∀ m : Member, m ∈ Member.declared) ∧ Member.declared.Nodup := by
  refine ⟨by decide, by decide, by decide, by decide, ?_, by decide⟩
  intro m
  cases m <;> decide

/-- C6. Under the declared `pack(1)` layout each member of `GameUpdatePacket`
starts at the sum of the sizes of the members declared before it (offsets
0, 1, 4, 8, 12, 16, 20, 24, 52), the fixed-header size is the sum of the
member sizes, 56 bytes, and the on-wire size of a frame is
56 + `data_size`. -/
theorem header_has_no_implicit_padding :
    packValue = 1
    ∧ (∀ m : Member, m.offset
        = ((Member.declared.takeWhile (fun n => n ≠ m)).map Member.size).sum)
    ∧ Member.declared.map (fun m => (m, m.offset))
      = [ (.type, 0), (.pad, 1), (.net_id, 4), (.pad_2, 8), (.flags, 12),
          (.pad_3, 16), (.decompressed_data_size, 20), (.pad_4, 24), (.data_size, 52) ]
    ∧ sizeofGameUpdatePacket = (Member.declared.map Member.size).sum
    ∧ sizeofGameUpdatePacket = 56
    ∧ (∀ p : GameUpdatePacket, onWireSize p = 56 + p.data_size) := by
  refine ⟨rfl, ?_, by decide, by decide, by decide, ?_⟩
  · intro m
    cases m <;> decide
  · intro p
    show sizeofGameUpdatePacket + p.data_size = 56 + p.data_size
    have h : sizeofGameUpdatePacket = 56 := by decide
    rw [h]

/-! ## Packet kind tags -/

/-- C7. The `PacketType` enumerators other than `PACKET_MAX` carry distinct
consecutive integers 0 .. `PACKET_MAX` - 1 with `PACKET_STATE` = 0 and more
than 40 of them (`PACKET_MAX` = 47); for every tag value `t` (in particular
every 8-bit one), `t` names a packet kind if and only if `t < PACKET_MAX`,
and a tag `t >= PACKET_MAX` names none. -/
theorem packet_max_is_terminal_bound :
    PacketType.PACKET_STATE.toNat = 0
    ∧ PacketType.PACKET_MAX.toNat = 47
    ∧ 40 < (PacketType.enumerators.filter (fun p => p ≠ .PACKET_MAX)).length
    ∧ (PacketType.enumerators.filter (fun p => p ≠ .PACKET_MAX)).map PacketType.toNat
        = List.range PacketType.PACKET_MAX.toNat
    ∧ (∀ p q : PacketType, p.toNat = q.toNat → p = q)
    ∧ (∀ p : PacketType, p ≠ .PACKET_MAX → p.toNat < PacketType.PACKET_MAX.toNat)
    ∧ (∀ t : Nat, (∃ p : PacketType, p ≠ .PACKET_MAX ∧ p.toNat = t)
        ↔ t < PacketType.PACKET_MAX.toNat)
    ∧ (∀ t : Nat, (PacketType.ofTag t).isSome = true ↔ t < PacketType.PACKET_MAX.toNat)
    ∧ (∀ t : Nat, PacketType.PACKET_MAX.toNat ≤ t → PacketType.ofTag t = none) := by
  have hmax : PacketType.PACKET_MAX.toNat = 47 := by decide
  have hlt : ∀ p : PacketType, p ≠ .PACKET_MAX → p.toNat < 47 := by
    intro p hp
    cases p <;> first | decide | exact absurd rfl hp
  have hsome : ∀ t : Nat, t < 47 →
      ∃ p : PacketType, PacketType.ofTag t = some p ∧ p ≠ .PACKET_MAX ∧ p.toNat = t := by
    intro t ht
    refine ⟨(PacketType.enumerators.get? t).getD .PACKET_MAX, ?_, ?_, ?_⟩ <;>
      (interval_cases t <;> decide)
  have hnone : ∀ t : Nat, 47 ≤ t → PacketType.ofTag t = none := by
    intro t ht
    unfold PacketType.ofTag
    rw [List.find?_eq_none]
    intro p _ hp
    simp only [decide_eq_true_eq] at hp
    have := hlt p hp.1
    omega
  rw [hmax]
  refine ⟨by decide, rfl, by decide, by decide, ?_, hlt, ?_, ?_, hnone⟩
  · intro p q h
    cases p <;> cases q <;> first | rfl | (exfalso; revert h; decide)
  · intro t
    constructor
    · rintro ⟨p, hp, rfl⟩
      exact hlt p hp
    · intro ht
      obtain ⟨p, _, hp, hpt⟩ := hsome t ht
      exact ⟨p, hp, hpt⟩
  · intro t
    constructor
    · intro h
      by_contra hge
      rw [hnone t (by omega)] at h
      exact absurd h (by decide)
    · intro ht
      obtain ⟨p, hp, _, _⟩ := hsome t ht
      rw [hp]
      rfl

/-! ## Typed bindings -/

/-- C8. For every packet kind tag `P` and channel `C`, `NetPacket<P, C>`
reports `MESSAGE_TYPE` = `NET_MESSAGE_GAME_PACKET` (integer 4),
`PACKET_TYPE` = `P` and `CHANNEL` = `C`, and `NetPacket<P>` reports channel 0;
`NetMessage<M, C>` reports `MESSAGE_TYPE` = `M` and `CHANNEL` = `C`, and
`NetMessage<M>` reports channel 0. -/
theorem binding_constants (P : PacketType) (M : NetMessageType) (C : Int)
    (x : NetPacket P C) (x0 : NetPacket P) (y : NetMessage M C) (y0 : NetMessage M) :
    x.MESSAGE_TYPE = NetMessageType.NET_MESSAGE_GAME_PACKET
    ∧ NetMessageType.NET_MESSAGE_GAME_PACKET.toNat = 4
    ∧ x.PACKET_TYPE = P ∧ x.CHANNEL = C
    ∧ x0.MESSAGE_TYPE = NetMessageType.NET_MESSAGE_GAME_PACKET
    ∧ x0.PACKET_TYPE = P ∧ x0.CHANNEL = 0
    ∧ y.MESSAGE_TYPE = M ∧ y.CHANNEL = C
    ∧ y0.MESSAGE_TYPE = M ∧ y0.CHANNEL = 0 :=
  ⟨rfl, by decide, rfl, rfl, rfl, rfl, rfl, rfl, rfl, rfl, rfl⟩

/-- C9. The default handlers reject and emit nothing: for every input the
default `NetMessage::read` and `NetPacket::read` return false, and after the
default `NetMessage::write` and `NetPacket::write` the writer stream, the
`GameUpdatePacket` argument and the trailing-payload byte vector equal their
values before the call. -/
theorem default_handlers_reject_and_emit_nothing
    {TextParse ByteStream : Type} (P : PacketType) (M : NetMessageType) (C : Int)
    (x : NetPacket P C) (y : NetMessage M C)
    (tp : TextParse) (bs : ByteStream) (pkt : GameUpdatePacket) (ext : List Nat) :
    y.read tp = false
    ∧ x.read pkt = false
    ∧ y.write bs = bs
    ∧ (x.write pkt ext).1 = pkt
    ∧ (x.write pkt ext).2 = ext :=
  ⟨rfl, rfl, rfl, rfl, rfl⟩

end packet

namespace server

/-! ## Text codec lemmas -/

theorem tokenize_ne_nil (d : Char) (s : Text) : tokenize d s ≠ [] := by
  cases s with
  | nil => simp [tokenize]
  | cons c cs =>
    unfold tokenize
    split
    · simp
    · split <;> simp

theorem tokenize_of_not_mem (d : Char) (t : Text) (h : d ∉ t) :
    tokenize d t = [t] := by
  induction t with
  | nil => rfl
  | cons c cs ih =>
    have hc : c ≠ d := fun e => h (by simp [e])
    have hcs : d ∉ cs := fun e => h (by simp [e])
    unfold tokenize
    rw [if_neg hc, ih hcs]

theorem tokenize_append_delim (d : Char) (t s : Text) (h : d ∉ t) :
    tokenize d (t ++ d :: s) = t :: tokenize d s := by
  induction t with
  | nil =>
    show tokenize d (d :: s) = [] :: tokenize d s
    rw [tokenize, if_pos rfl]
  | cons c cs ih =>
    have hc : c ≠ d := fun e => h (by simp [e])
    have hcs : d ∉ cs := fun e => h (by simp [e])
    show tokenize d (c :: (cs ++ d :: s)) = (c :: cs) :: tokenize d s
    rw [tokenize, if_neg hc, ih hcs]

theorem tokenize_joinWith (d : Char) (ts : List Text) (hne : ts ≠ [])
    (h : ∀ t ∈ ts, d ∉ t) : tokenize d (joinWith d ts) = ts := by
  induction ts with
  | nil => exact absurd rfl hne
  | cons t ts ih =>
    cases ts with
    | nil =>
      show tokenize d t = [t]
      exact tokenize_of_not_mem d t (h t (by simp))
    | cons t2 ts2 =>
      show tokenize d (t ++ d :: joinWith d (t2 :: ts2)) = t :: t2 :: ts2
      rw [tokenize_append_delim d t _ (h t (by simp)),
        ih (by simp) (fun u hu => h u (List.mem_cons_of_mem _ hu))]

theorem mem_of_mem_tokenize (d : Char) (s : Text) :
    ∀ t ∈ tokenize d s, d ∉ t ∧ ∀ c ∈ t, c ∈ s := by
  induction s with
  | nil =>
    intro t ht
    simp [tokenize] at ht
    subst ht
    simp
  | cons c cs ih =>
    intro t ht
    unfold tokenize at ht
    by_cases hc : c = d
    · rw [if_pos hc] at ht
      rcases List.mem_cons.mp ht with h0 | h1
      · subst h0; simp
      · obtain ⟨h2, h3⟩ := ih t h1
        exact ⟨h2, fun x hx => List.mem_cons_of_mem _ (h3 x hx)⟩
    · rw [if_neg hc] at ht
      cases hs : tokenize d cs with
      | nil => exact absurd hs (tokenize_ne_nil d cs)
      | cons u us =>
        rw [hs] at ht ih
        simp only [List.mem_cons] at ht
        rcases ht with h0 | h1
        · subst h0
          obtain ⟨h2, h3⟩ := ih u (by simp)
          constructor
          · intro hmem
            rcases List.mem_cons.mp hmem with e | e
            · exact hc e.symm
            · exact h2 e
          · intro x hx
            rcases List.mem_cons.mp hx with e | e
            · subst e; simp
            · exact List.mem_cons_of_mem _ (h3 x e)
        · obtain ⟨h2, h3⟩ := ih t (List.mem_cons_of_mem _ h1)
          exact ⟨h2, fun x hx => List.mem_cons_of_mem _ (h3 x hx)⟩

theorem mem_joinWith (d : Char) (ts : List Text) (c : Char)
    (h : c ∈ joinWith d ts) : c = d ∨ ∃ t ∈ ts, c ∈ t := by
  induction ts with
  | nil => simp [joinWith] at h
  | cons t ts ih =>
    cases ts with
    | nil =>
      right
      exact ⟨t, by simp, h⟩
    | cons t2 ts2 =>
      change c ∈ t ++ d :: joinWith d (t2 :: ts2) at h
      rcases List.mem_append.mp h with h1 | h1
      · right
        exact ⟨t, by simp, h1⟩
      · rcases List.mem_cons.mp h1 with h2 | h2
        · left; exact h2
        · rcases ih h2 with h3 | ⟨u, hu, hcu⟩
          · left; exact h3
          · right
            exact ⟨u, List.mem_cons_of_mem _ hu, hcu⟩

theorem TextParse.parse_wellFormed (rd fd : Char) (raw : Text) :
    TextParse.WellFormed rd fd (TextParse.parse rd fd raw) := by
  intro r hr
  unfold TextParse.parse at hr
  rw [List.mem_filterMap] at hr
  obtain ⟨rec, hrec, hm⟩ := hr
  obtain ⟨hrd, _⟩ := mem_of_mem_tokenize rd raw rec hrec
  have htok := mem_of_mem_tokenize fd rec
  cases hs : tokenize fd rec with
  | nil => rw [hs] at hm; simp at hm
  | cons k rest =>
    cases rest with
    | nil => rw [hs] at hm; simp at hm
    | cons v vs =>
      rw [hs] at hm htok
      simp only [Option.some.injEq] at hm
      subst hm
      refine ⟨by simp, ?_⟩
      intro t ht
      obtain ⟨h1, h2⟩ := htok t ht
      exact ⟨fun hmem => hrd (h2 rd hmem), h1⟩

theorem TextParse.set_wellFormed (rd fd : Char) (tp : TextParse) (k : Text)
    (vs : List Text) (htp : TextParse.WellFormed rd fd tp) (hvs : vs ≠ [])
    (hk : ∀ t ∈ k :: vs, rd ∉ t ∧ fd ∉ t) :
    TextParse.WellFormed rd fd (TextParse.set tp k vs) := by
  induction tp with
  | nil =>
    intro r hr
    simp only [TextParse.set, List.mem_singleton] at hr
    subst hr
    exact ⟨hvs, hk⟩
  | cons r0 tp ih =>
    obtain ⟨k2, vs2⟩ := r0
    have htl : TextParse.WellFormed rd fd tp := fun r hr => htp r (List.mem_cons_of_mem _ hr)
    intro r hr
    unfold TextParse.set at hr
    by_cases hkk : k2 = k
    · rw [if_pos hkk] at hr
      rcases List.mem_cons.mp hr with h0 | h1
      · subst h0; exact ⟨hvs, hk⟩
      · exact htl r h1
    · rw [if_neg hkk] at hr
      rcases List.mem_cons.mp hr with h0 | h1
      · subst h0; exact htp _ (by simp)
      · exact ih htl r h1

theorem TextParse.get_set_same (tp : TextParse) (k : Text) (vs : List Text) :
    TextParse.get (TextParse.set tp k vs) k = some vs := by
  induction tp with
  | nil => simp [TextParse.set, TextParse.get]
  | cons r0 tp ih =>
    obtain ⟨k2, vs2⟩ := r0
    unfold TextParse.set
    by_cases hkk : k2 = k
    · rw [if_pos hkk]; simp [TextParse.get]
    · rw [if_neg hkk]; simp [TextParse.get, hkk, ih]

theorem TextParse.get_set_other (tp : TextParse) (k k3 : Text) (vs : List Text)
    (hne : k ≠ k3) :
    TextParse.get (TextParse.set tp k vs) k3 = TextParse.get tp k3 := by
  induction tp with
  | nil => simp [TextParse.set, TextParse.get, hne]
  | cons r0 tp ih =>
    obtain ⟨k2, vs2⟩ := r0
    unfold TextParse.set
    by_cases hkk : k2 = k
    · rw [if_pos hkk]
      have : k2 ≠ k3 := hkk ▸ hne
      simp [TextParse.get, hne, this]
    · rw [if_neg hkk]
      by_cases h3 : k2 = k3
      · simp [TextParse.get, h3]
      · simp [TextParse.get, h3, ih]

theorem TextParse.parse_get_raw (rd fd : Char) (tp : TextParse) (hd : fd ≠ rd)
    (htp : TextParse.WellFormed rd fd tp) :
    TextParse.parse rd fd (TextParse.get_raw rd fd tp) = tp := by
  cases htp0 : tp with
  | nil => simp [TextParse.get_raw, TextParse.parse, joinWith, tokenize]
  | cons r0 tp2 =>
    rw [← htp0]
    have hne : tp.map (fun r => joinWith fd (r.1 :: r.2)) ≠ [] := by
      rw [htp0]; simp
    have hno : ∀ t ∈ tp.map (fun r => joinWith fd (r.1 :: r.2)), rd ∉ t := by
      intro t ht hmem
      rw [List.mem_map] at ht
      obtain ⟨r, hr, rfl⟩ := ht
      rcases mem_joinWith fd _ rd hmem with h1 | ⟨u, hu, hcu⟩
      · exact hd h1.symm
      · exact ((htp r hr).2 u hu).1 hcu
    unfold TextParse.parse TextParse.get_raw
    rw [tokenize_joinWith rd _ hne hno, List.filterMap_map]
    clear hne hno htp0
    induction tp with
    | nil => rfl
    | cons r tp ih =>
      have hr := htp r (by simp)
      have htl : TextParse.WellFormed rd fd tp := fun x hx => htp x (List.mem_cons_of_mem _ hx)
      obtain ⟨k, vs⟩ := r
      have htok : tokenize fd (joinWith fd (k :: vs)) = k :: vs :=
        tokenize_joinWith fd (k :: vs) (by simp) (fun t ht => (hr.2 t ht).2)
      cases vs with
      | nil => exact absurd rfl hr.1
      | cons v vs2 =>
        rw [List.filterMap_cons]
        simp only [Function.comp_apply, htok]
        rw [ih htl]

/-! ## The bootstrap handler -/

theorem toDigitsCore_chars (fuel : Nat) :
    ∀ (n : Nat) (ds : List Char), (∀ c ∈ ds, c ∈ handlerChars) →
      ∀ c ∈ Nat.toDigitsCore 10 fuel n ds, c ∈ handlerChars := by
  have hdig : ∀ k, k < 10 → Nat.digitChar k ∈ handlerChars := by decide
  induction fuel with
  | zero =>
    intro n ds hds c hc
    exact hds c hc
  | succ fuel ih =>
    intro n ds hds c hc
    have hcons : ∀ x ∈ Nat.digitChar (n % 10) :: ds, x ∈ handlerChars := by
      intro x hx
      rcases List.mem_cons.mp hx with e | e
      · rw [e]; exact hdig _ (Nat.mod_lt _ (by decide))
      · exact hds x e
    unfold Nat.toDigitsCore at hc
    by_cases h0 : n / 10 = 0
    · simp only [h0, if_true] at hc
      exact hcons c hc
    · simp only [h0, if_false] at hc
      exact ih _ _ hcons c hc

theorem to_string_chars (n : Int) : ∀ c ∈ to_string n, c ∈ handlerChars := by
  have hnat : ∀ m : Nat, ∀ c ∈ Nat.toDigits 10 m, c ∈ handlerChars := by
    intro m c hc
    exact toDigitsCore_chars (m + 1) m [] (by simp) c hc
  intro c hc
  unfold to_string at hc
  by_cases hneg : n < 0
  · rw [if_pos hneg] at hc
    rcases List.mem_cons.mp hc with e | e
    · rw [e]; decide
    · exact hnat _ c e
  · rw [if_neg hneg] at hc
    exact hnat _ c hc

theorem no_delimiter_of_chars (rd fd : Char) (t : Text)
    (hrd : rd ∉ handlerChars) (hfd : fd ∉ handlerChars)
    (ht : ∀ c ∈ t, c ∈ handlerChars) : rd ∉ t ∧ fd ∉ t :=
  ⟨fun h => hrd (ht rd h), fun h => hfd (ht fd h)⟩

/-- C10. For every upstream server-data text (the empty text of a failed
lookup included) and every configured port, with record and field delimiters
that differ and are none of the characters the handler writes, the text the
handler returns parses to a token map in which `server` is `127.0.0.1`,
`port` is the decimal rendering of the configured port and `type2` is `1`,
whatever the upstream text held for those keys; for the empty upstream text
the returned text is exactly those three records. -/
theorem bootstrap_payload_fields (rd fd : Char) (upstream : Text) (port : Int)
    (hd : fd ≠ rd) (hrd : rd ∉ handlerChars) (hfd : fd ∉ handlerChars) :
    TextParse.get (TextParse.parse rd fd (serverDataHandler rd fd upstream port))
        "server".toList = some ["127.0.0.1".toList]
    ∧ TextParse.get (TextParse.parse rd fd (serverDataHandler rd fd upstream port))
        "port".toList = some [to_string port]
    ∧ TextParse.get (TextParse.parse rd fd (serverDataHandler rd fd upstream port))
        "type2".toList = some ["1".toList]
    ∧ serverDataHandler rd fd [] port
        = joinWith rd [ joinWith fd ["server".toList, "127.0.0.1".toList],
                        joinWith fd ["port".toList, to_string port],
                        joinWith fd ["type2".toList, "1".toList] ] := by
  have clean := no_delimiter_of_chars rd fd
  have w0 := TextParse.parse_wellFormed rd fd upstream
  have w1 := TextParse.set_wellFormed rd fd _ "server".toList ["127.0.0.1".toList] w0
    (by simp) (by
      intro t ht
      simp only [List.mem_cons, List.mem_singleton, List.not_mem_nil, or_false] at ht
      rcases ht with e | e <;> subst e <;> exact clean _ hrd hfd (by decide))
  have w2 := TextParse.set_wellFormed rd fd _ "port".toList [to_string port] w1
    (by simp) (by
      intro t ht
      simp only [List.mem_cons, List.mem_singleton, List.not_mem_nil, or_false] at ht
      rcases ht with e | e <;> subst e
      · exact clean _ hrd hfd (by decide)
      · exact clean _ hrd hfd (to_string_chars port))
  have w3 := TextParse.set_wellFormed rd fd _ "type2".toList ["1".toList] w2
    (by simp) (by
      intro t ht
      simp only [List.mem_cons, List.mem_singleton, List.not_mem_nil, or_false] at ht
      rcases ht with e | e <;> subst e <;> exact clean _ hrd hfd (by decide))
  have hrt := TextParse.parse_get_raw rd fd _ hd w3
  have hout : TextParse.parse rd fd (serverDataHandler rd fd upstream port)
      = TextParse.set (TextParse.set (TextParse.set (TextParse.parse rd fd upstream)
          "server".toList ["127.0.0.1".toList]) "port".toList [to_string port])
          "type2".toList ["1".toList] := hrt
  rw [hout]
  refine ⟨?_, ?_, ?_, ?_⟩
  · rw [TextParse.get_set_other _ _ _ _ (by decide),
      TextParse.get_set_other _ _ _ _ (by decide), TextParse.get_set_same]
  · rw [TextParse.get_set_other _ _ _ _ (by decide), TextParse.get_set_same]
  · rw [TextParse.get_set_same]
  · rfl

/-- Witness of C10 with the delimiters newline and `|`, an upstream text that
already holds `server`, `port` and `type2`, and port 17091. -/
theorem bootstrap_payload_fields_witness :
    TextParse.get (TextParse.parse '\n' '|' (serverDataHandler '\n' '|'
        "server|213.179.209.168\nport|17198\ntype|1\ntype2|0\nRTENDMARKERBS1001".toList 17091))
        "server".toList = some ["127.0.0.1".toList]
    ∧ TextParse.get (TextParse.parse '\n' '|' (serverDataHandler '\n' '|'
        "server|213.179.209.168\nport|17198\ntype|1\ntype2|0\nRTENDMARKERBS1001".toList 17091))
        "port".toList = some [to_string 17091]
    ∧ TextParse.get (TextParse.parse '\n' '|' (serverDataHandler '\n' '|'
        "server|213.179.209.168\nport|17198\ntype|1\ntype2|0\nRTENDMARKERBS1001".toList 17091))
        "type2".toList = some ["1".toList]
    ∧ serverDataHandler '\n' '|' [] 17091
        = joinWith '\n' [ joinWith '|' ["server".toList, "127.0.0.1".toList],
                          joinWith '|' ["port".toList, to_string 17091],
                          joinWith '|' ["type2".toList, "1".toList] ] :=
  bootstrap_payload_fields '\n' '|'
    "server|213.179.209.168\nport|17198\ntype|1\ntype2|0\nRTENDMARKERBS1001".toList 17091
    (by decide) (by decide) (by decide)

end server
